import Mathlib

/-!
Shallow embedding of the flag registry and parser in `src/spar.rs`.

Modelling conventions:
* A Rust `String` / `&str` is modelled as its sequence of Unicode scalar
  values, `Str := List Char` (Rust string equality coincides with equality
  of the char sequences, since UTF-8 encoding is injective).  Where the
  source indexes bytes (the two slicing sites, `&name[0..=0]` and
  `msg[1..msg.len() - 1]`), the model states the byte-boundary conditions
  through the per-char UTF-8 length `utf8Len`; the equivalence with Rust's
  byte-level `is_char_boundary` checks is spelled out in comments at those
  definitions.
* A Rust panic (`panic!`, `unwrap`, `unreachable!`, slice-index panics) is
  modelled as `Option.none`; every fallible operation returns an `Option`.
* The registry array `[Option<Rc<RefCell<OwnedFlag>>>; 256]` together with
  `position` always holds `Some` entries exactly at indices `0..position`
  (entries are only added by `push`), and the parse loop breaks at the first
  `None`; so the context is modelled as the list of registered records in
  registration order, with the capacity check comparing its length to
  `FLAG_CAP`.
* Floating point: `Float` (f32) and `Double` (f64) payloads are modelled as
  exact rationals and their token grammar as finite decimal literals
  (`parseFloatLit`); IEEE-754 rounding and the `inf`/`infinity`/`nan` forms
  are not modelled.  No claim inspects a floating-point payload, only the
  variant tag.
-/

set_option autoImplicit false

namespace Spar

/-- Rust strings as sequences of Unicode scalar values. -/
abbrev Str := List Char

/-- The character sequence of a Lean string literal, used to write
concrete Rust strings in statements. -/
def strChars (s : String) : Str := s.data

/-- Number of bytes in the UTF-8 encoding of a character
(Rust `char::len_utf8`). -/
def utf8Len (c : Char) : Nat :=
  if c.toNat < 128 then 1
  else if c.toNat < 2048 then 2
  else if c.toNat < 65536 then 3
  else 4

/-- Number of bytes in the UTF-8 encoding of a string (Rust `str::len`). -/
def byteLen (s : Str) : Nat := (s.map utf8Len).sum

/-- `FLAG_CAP` (src/spar.rs line 5): capacity of the registry. -/
def FLAG_CAP : Nat := 256

/-- The tagged union `FlagValue` (src/spar.rs lines 71-80).  `Long` carries
an `i64` value (an integer in the i64 range, see `parseI64`), `ULong` a
`u64` value, `Float`/`Double` are modelled as exact rationals (see the
module comment). -/
inductive FlagValue where
  | Bool (b : Bool)
  | Long (v : Int)
  | ULong (v : Nat)
  | Float (v : ℚ)
  | Double (v : ℚ)
  | String (s : Str)
  | Empty
  deriving DecidableEq

/-- The variant tag of a `FlagValue`. -/
inductive FlagTag where
  | bool | long | ulong | float | double | string | empty
  deriving DecidableEq

/-- Tag of a value. -/
def FlagValue.tag : FlagValue → FlagTag
  | .Bool _ => .bool
  | .Long _ => .long
  | .ULong _ => .ulong
  | .Float _ => .float
  | .Double _ => .double
  | .String _ => .string
  | .Empty => .empty

/-- True for the value-carrying (non-`Bool`, non-`Empty`) kinds, the ones
that consume a value token when matched (src/spar.rs lines 161-163). -/
def isValueKind : FlagValue → Bool
  | .Long _ | .ULong _ | .Float _ | .Double _ | .String _ => true
  | _ => false

/-- ASCII decimal digit test. -/
def isDigit (c : Char) : Bool := 48 ≤ c.toNat && c.toNat ≤ 57

/-- Numeric value of an ASCII digit. -/
def digitVal (c : Char) : Nat := c.toNat - 48

/-- Accumulate a run of decimal digits; fails if a non-digit occurs. -/
def parseDigitsAux : Str → Nat → Option Nat
  | [], acc => some acc
  | c :: r, acc =>
    if isDigit c then parseDigitsAux r (acc * 10 + digitVal c) else none

/-- A non-empty all-digit string as a natural number (the digit part of
Rust `from_str_radix` with radix 10). -/
def parseDigits : Str → Option Nat
  | [] => none
  | s => parseDigitsAux s 0

/-- Rust `i64::from_str` (`msg.parse::<i64>()`): optional sign, then one or
more ASCII digits, failing on any other character, the empty string, or
overflow past the i64 range. -/
def parseI64 (s : Str) : Option Int :=
  match s with
  | '+' :: r => (parseDigits r).bind fun n =>
      if n ≤ 2 ^ 63 - 1 then some (n : Int) else none
  | '-' :: r => (parseDigits r).bind fun n =>
      if n ≤ 2 ^ 63 then some (-(n : Int)) else none
  | _ => (parseDigits s).bind fun n =>
      if n ≤ 2 ^ 63 - 1 then some (n : Int) else none

/-- Rust `u64::from_str`: optional leading `+` (no `-`), then one or more
ASCII digits, failing on any other character or overflow past `2^64 - 1`. -/
def parseU64 (s : Str) : Option Nat :=
  match s with
  | '+' :: r => (parseDigits r).bind fun n =>
      if n ≤ 2 ^ 64 - 1 then some n else none
  | _ => (parseDigits s).bind fun n =>
      if n ≤ 2 ^ 64 - 1 then some n else none

/-- Consume a maximal run of digits, returning the accumulated value, the
number of digits consumed, and the remainder. -/
def takeDigitsAux : Str → Nat → Nat → Nat × Nat × Str
  | [], acc, cnt => (acc, cnt, [])
  | c :: r, acc, cnt =>
    if isDigit c then takeDigitsAux r (acc * 10 + digitVal c) (cnt + 1)
    else (acc, cnt, c :: r)

/-- Exponent part of a float literal: optional sign then one or more
digits, consuming the whole remainder. -/
def parseExpPart (mant : ℚ) (r : Str) : Option ℚ :=
  let es : Bool × Str :=
    match r with
    | '+' :: r2 => (false, r2)
    | '-' :: r2 => (true, r2)
    | _ => (false, r)
  let t := takeDigitsAux es.2 0 0
  if t.2.1 = 0 then none
  else if t.2.2 ≠ [] then none
  else if es.1 then some (mant / (10 : ℚ) ^ t.1)
  else some (mant * (10 : ℚ) ^ t.1)

/-- Rust `f32::from_str` / `f64::from_str` (`msg.parse()`), modelled on
finite decimal literals with their exact rational value: optional sign,
digits with an optional `.` and fraction digits (at least one digit in
total), and an optional `e`/`E` exponent.  IEEE-754 rounding and the
`inf`/`infinity`/`nan` spellings are outside the model (module comment). -/
def parseFloatLit (s : Str) : Option ℚ :=
  let sgn : ℚ × Str :=
    match s with
    | '+' :: r => (1, r)
    | '-' :: r => (-1, r)
    | _ => (1, s)
  let ti := takeDigitsAux sgn.2 0 0
  let tf : Nat × Nat × Str :=
    match ti.2.2 with
    | '.' :: r => takeDigitsAux r 0 0
    | _ => (0, 0, ti.2.2)
  if ti.2.1 + tf.2.1 = 0 then none
  else
    let mant : ℚ := sgn.1 * ((ti.1 : ℚ) + (tf.1 : ℚ) / (10 : ℚ) ^ tf.2.1)
    match tf.2.2 with
    | [] => some mant
    | 'e' :: r => parseExpPart mant r
    | 'E' :: r => parseExpPart mant r
    | _ => none

/-- The `String` arm of `FlagValue::parse` (src/spar.rs lines 97-103).
If `msg` starts with `"`, the source stores `msg[1..msg.len() - 1]`, a
byte slice.  Since the leading `"` is one byte, byte index `1` is a char
boundary whenever the slice is otherwise in range; byte index
`msg.len() - 1` is a char boundary iff the final character is a single
byte; and the slice `1..msg.len() - 1` panics when `msg.len() < 2`
(for the one-byte string it is the invalid range `1..0`) or when
`msg.len() - 1` is not a char boundary.  When the slice is valid it is
exactly the char sequence without its first and last character. -/
def stringAssign (msg : Str) : Option Str :=
  if msg.head? = some '"' then
    match msg.getLast? with
    | some c =>
      if 2 ≤ byteLen msg ∧ utf8Len c = 1 then
        some ((msg.drop 1).dropLast)
      else none
    | none => none
  else some msg

/-- `FlagValue::parse` (src/spar.rs lines 83-106).  Mutation of the payload
is modelled by returning the new value; `unwrap` on a failed numeric parse
and the `unreachable!` arm (hit for `Bool` and `Empty`) are `none`. -/
def FlagValue.parse : FlagValue → Str → Option FlagValue
  | .Long _, msg => (parseI64 msg).map FlagValue.Long
  | .ULong _, msg => (parseU64 msg).map FlagValue.ULong
  | .Float _, msg => (parseFloatLit msg).map FlagValue.Float
  | .Double _, msg => (parseFloatLit msg).map FlagValue.Double
  | .String _, msg => (stringAssign msg).map FlagValue.String
  | _, _ => none

/-- `OwnedFlag` (src/spar.rs lines 32-37). -/
structure OwnedFlag where
  name : Str
  short_form : Str
  value : FlagValue
  deriving DecidableEq

/-- `OwnedFlag::new` (src/spar.rs lines 40-44): the default short form is
`&name[0..=0]`, the byte slice `0..1`.  It panics when `name` is empty
(byte index 1 out of bounds) or when the first character occupies more
than one byte (byte index 1 is then not a char boundary); otherwise the
slice is the one-character string holding the first character. -/
def OwnedFlag.new (name : Str) (value : FlagValue) : Option OwnedFlag :=
  match name with
  | [] => none
  | c :: _ => if utf8Len c = 1 then some ⟨name, [c], value⟩ else none

/-- `OwnedFlag::with_short_form` (src/spar.rs lines 46-50). -/
def OwnedFlag.with_short_form (name short_form : Str) (value : FlagValue) :
    OwnedFlag :=
  ⟨name, short_form, value⟩

/-- `FlagContext` (src/spar.rs lines 11-15): the registered records in
registration order plus the ignore toggle (module comment explains the
array-to-list reduction). -/
structure FlagContext where
  flags : List OwnedFlag
  flag_ignore : Bool
  deriving DecidableEq

/-- `FlagContext::new` (src/spar.rs lines 18-24): empty registry,
`flag_ignore` defaults to `true`. -/
def FlagContext.new : FlagContext := ⟨[], true⟩

/-- `disable_flag_ignore` (src/spar.rs lines 216-218). -/
def disable_flag_ignore (ctx : FlagContext) : FlagContext :=
  { ctx with flag_ignore := false }

/-- `new_flag` (src/spar.rs lines 220-229): fatal when the registry is at
capacity, then builds the record with the default short form (which may
itself panic, see `OwnedFlag.new`) and appends it.  The returned record is
the content the issued handle aliases. -/
def new_flag (ctx : FlagContext) (name : Str) (value : FlagValue) :
    Option (FlagContext × OwnedFlag) :=
  if ctx.flags.length = FLAG_CAP then none
  else
    match OwnedFlag.new name value with
    | none => none
    | some f => some ({ ctx with flags := ctx.flags ++ [f] }, f)

/-- `new_flag_short` (src/spar.rs lines 267-276): fatal only at capacity;
the explicit short form involves no slicing. -/
def new_flag_short (ctx : FlagContext) (name short_form : Str)
    (value : FlagValue) : Option (FlagContext × OwnedFlag) :=
  if ctx.flags.length = FLAG_CAP then none
  else
    some ({ ctx with
              flags := ctx.flags ++ [OwnedFlag.with_short_form name short_form value] },
          OwnedFlag.with_short_form name short_form value)

/-- `flag_bool` (src/spar.rs line 234). -/
def flag_bool (ctx : FlagContext) (name : Str) (default_value : Bool) :
    Option (FlagContext × OwnedFlag) :=
  new_flag ctx name (.Bool default_value)

/-- `flag_long` (src/spar.rs line 239). -/
def flag_long (ctx : FlagContext) (name : Str) (default_value : Int) :
    Option (FlagContext × OwnedFlag) :=
  new_flag ctx name (.Long default_value)

/-- `flag_ulong` (src/spar.rs line 244). -/
def flag_ulong (ctx : FlagContext) (name : Str) (default_value : Nat) :
    Option (FlagContext × OwnedFlag) :=
  new_flag ctx name (.ULong default_value)

/-- `flag_float` (src/spar.rs line 249). -/
def flag_float (ctx : FlagContext) (name : Str) (default_value : ℚ) :
    Option (FlagContext × OwnedFlag) :=
  new_flag ctx name (.Float default_value)

/-- `flag_double` (src/spar.rs line 254). -/
def flag_double (ctx : FlagContext) (name : Str) (default_value : ℚ) :
    Option (FlagContext × OwnedFlag) :=
  new_flag ctx name (.Double default_value)

/-- `flag_string` (src/spar.rs line 263). -/
def flag_string (ctx : FlagContext) (name : Str) (default_value : Str) :
    Option (FlagContext × OwnedFlag) :=
  new_flag ctx name (.String default_value)

/-- `flag_bool_short` (src/spar.rs line 281). -/
def flag_bool_short (ctx : FlagContext) (name short_form : Str)
    (default_value : Bool) : Option (FlagContext × OwnedFlag) :=
  new_flag_short ctx name short_form (.Bool default_value)

/-- `flag_long_short` (src/spar.rs line 286). -/
def flag_long_short (ctx : FlagContext) (name short_form : Str)
    (default_value : Int) : Option (FlagContext × OwnedFlag) :=
  new_flag_short ctx name short_form (.Long default_value)

/-- `flag_ulong_short` (src/spar.rs line 291). -/
def flag_ulong_short (ctx : FlagContext) (name short_form : Str)
    (default_value : Nat) : Option (FlagContext × OwnedFlag) :=
  new_flag_short ctx name short_form (.ULong default_value)

/-- `flag_float_short` (src/spar.rs line 296). -/
def flag_float_short (ctx : FlagContext) (name short_form : Str)
    (default_value : ℚ) : Option (FlagContext × OwnedFlag) :=
  new_flag_short ctx name short_form (.Float default_value)

/-- `flag_double_short` (src/spar.rs line 301). -/
def flag_double_short (ctx : FlagContext) (name short_form : Str)
    (default_value : ℚ) : Option (FlagContext × OwnedFlag) :=
  new_flag_short ctx name short_form (.Double default_value)

/-- `flag_string_short` (src/spar.rs line 310). -/
def flag_string_short (ctx : FlagContext) (name short_form : Str)
    (default_value : Str) : Option (FlagContext × OwnedFlag) :=
  new_flag_short ctx name short_form (.String default_value)

/-- Tokenization step of `parse_args` (src/spar.rs lines 126-146): strip
every leading `-`, then if nothing remains the token is skipped (`none`,
the `continue` at line 137); otherwise one leading `/` marks an
ignore-occurrence and is consumed, the effective ignore is
`ctx.flag_ignore && marked` (line 142) and the remaining characters are
the name. -/
def tokenName (flagIgnore : Bool) (arg : Str) : Option (Bool × Str) :=
  match arg.dropWhile (fun c => c == '-') with
  | [] => none
  | c :: cs =>
    let marked := c == '/'
    some (flagIgnore && marked, if marked then cs else c :: cs)

/-- The match test of the registry scan (src/spar.rs line 154, negated):
a record matches when its name or short form equals the stripped name. -/
def flagMatches (name : Str) (f : OwnedFlag) : Bool :=
  f.name == name || f.short_form == name

/-- Action taken on the first matching record (src/spar.rs lines 158-181).
`next` is the next token of the stream (if any); the returned `Bool` says
whether that token was consumed.  With effective ignore: `Bool` does
nothing, the value kinds consume (and discard) the next token, panicking
(`unwrap`, line 164) when the stream is exhausted, `Empty` is
`unreachable!` (line 166).  Without ignore: `Bool` toggles and consumes
nothing (lines 172-175); every other kind consumes the next token
(panicking when exhausted, line 176) and applies `FlagValue.parse` to it
(line 180), whose failure panics. -/
def applyFlag (ignore : Bool) (next : Option Str) (f : OwnedFlag) :
    Option (OwnedFlag × Bool) :=
  if ignore then
    match f.value with
    | .Bool _ => some (f, false)
    | .Empty => none
    | _ =>
      match next with
      | none => none
      | some _ => some (f, true)
  else
    match f.value with
    | .Bool b => some ({ f with value := .Bool (!b) }, false)
    | v =>
      match next with
      | none => none
      | some t =>
        match v.parse t with
        | none => none
        | some v' => some ({ f with value := v' }, true)

/-- The registry scan (src/spar.rs lines 148-182): walk the records in
registration order (the array's `Some` prefix; the loop breaks at the
first `None`), skip non-matching records, act on the first match through
`applyFlag` and stop.  Returns the updated record list and whether a value
token was consumed. -/
def scanFlags (ignore : Bool) (name : Str) (next : Option Str) :
    List OwnedFlag → Option (List OwnedFlag × Bool)
  | [] => some ([], false)
  | f :: fs =>
    if flagMatches name f then
      (applyFlag ignore next f).map (fun p => (p.1 :: fs, p.2))
    else
      (scanFlags ignore name next fs).map (fun p => (f :: p.1, p.2))

/-- One iteration of the outer `while` loop of `parse_args`
(src/spar.rs lines 125-183) on the token `arg`, with `next` the following
token of the stream: tokenize, then scan the registry. -/
def procToken (ctx : FlagContext) (arg : Str) (next : Option Str) :
    Option (FlagContext × Bool) :=
  match tokenName ctx.flag_ignore arg with
  | none => some (ctx, false)
  | some (ig, name) =>
    (scanFlags ig name next ctx.flags).map
      (fun p => ({ ctx with flags := p.1 }, p.2))

/-- `parse_args` (src/spar.rs lines 123-185) over the token sequence.  The
iterator is the token list; a consumed value token drops the head of the
remainder.  The `some (ctx', true)` / `[]` case cannot occur (a token is
only consumed when `next` existed) but is mapped to `none`. -/
def parse_args (ctx : FlagContext) : List Str → Option FlagContext
  | [] => some ctx
  | arg :: rest =>
    match procToken ctx arg rest.head? with
    | none => none
    | some (ctx', false) => parse_args ctx' rest
    | some (ctx', true) =>
      match rest with
      | [] => none
      | _ :: rest2 => parse_args ctx' rest2

/-- Concrete example record: a `Long` flag named `count` with default short
alias `c`, as in the spec's ignore-mode trace. -/
def countFlag (d : Int) : OwnedFlag := ⟨strChars "count", strChars "c", .Long d⟩

/-- Registry holding just `countFlag d`, with ignore-prefix enabled. -/
def countCtx (d : Int) : FlagContext := ⟨[countFlag d], true⟩

/-- Concrete example record: a `Bool` flag named `verbose` with alias `v`. -/
def verboseFlag (b : Bool) : OwnedFlag :=
  ⟨strChars "verbose", strChars "v", .Bool b⟩

/-- Registry holding just `verboseFlag b`. -/
def verboseCtx (b ig : Bool) : FlagContext := ⟨[verboseFlag b], ig⟩

/-- Concrete example record: a `String` flag named `label` with alias `l`
and empty default. -/
def labelFlag (s : Str) : OwnedFlag := ⟨strChars "label", strChars "l", .String s⟩

/-- Registry holding just `labelFlag []`. -/
def labelCtx : FlagContext := ⟨[labelFlag []], true⟩

/-! ## General lemmas about the parser -/

/-- With effective ignore, a matched `Bool` record is returned unchanged and
no token is consumed. -/
theorem applyFlag_bool_ignore (next : Option Str) (n s : Str) (b : Bool) :
    applyFlag true next ⟨n, s, .Bool b⟩ = some (⟨n, s, .Bool b⟩, false) := rfl

/-- Without ignore, a matched `Bool` record is toggled and no token is
consumed. -/
theorem applyFlag_bool_toggle (next : Option Str) (n s : Str) (b : Bool) :
    applyFlag false next ⟨n, s, .Bool b⟩ = some (⟨n, s, .Bool (!b)⟩, false) := rfl

/-- With effective ignore, a matched value-kind record consumes (and
discards) the next token, panicking when the stream is exhausted. -/
theorem applyFlag_value_ignore (next : Option Str) (n s : Str) (v : FlagValue)
    (hv : isValueKind v = true) :
    applyFlag true next ⟨n, s, v⟩ =
      match next with
      | none => none
      | some _ => some (⟨n, s, v⟩, true) := by
  cases v <;> simp [isValueKind] at hv <;> cases next <;> rfl

/-- Without ignore, a matched value-kind record panics when the stream is
exhausted (src/spar.rs line 176, `unwrap`). -/
theorem applyFlag_value_noignore_none (n s : Str) (v : FlagValue)
    (hv : isValueKind v = true) :
    applyFlag false none ⟨n, s, v⟩ = none := by
  cases v <;> simp [isValueKind] at hv <;> rfl

/-- Without ignore, a matched value-kind record consumes the next token and
applies `FlagValue.parse` to it, panicking when the parse fails. -/
theorem applyFlag_value_noignore_some (t : Str) (n s : Str) (v : FlagValue)
    (hv : isValueKind v = true) :
    applyFlag false (some t) ⟨n, s, v⟩ =
      (v.parse t).map (fun v' => (⟨n, s, v'⟩, true)) := by
  cases v with
  | Bool b => simp [isValueKind] at hv
  | Empty => simp [isValueKind] at hv
  | Long x => cases hq : (FlagValue.Long x).parse t <;> simp [applyFlag, hq]
  | ULong x => cases hq : (FlagValue.ULong x).parse t <;> simp [applyFlag, hq]
  | Float x => cases hq : (FlagValue.Float x).parse t <;> simp [applyFlag, hq]
  | Double x => cases hq : (FlagValue.Double x).parse t <;> simp [applyFlag, hq]
  | String x => cases hq : (FlagValue.String x).parse t <;> simp [applyFlag, hq]

/-- A scan over records none of which matches leaves the registry unchanged
and consumes nothing (src/spar.rs line 154: every record is skipped). -/
theorem scanFlags_nomatch (ig : Bool) (name : Str) (next : Option Str)
    (fs : List OwnedFlag) (h : ∀ g ∈ fs, flagMatches name g = false) :
    scanFlags ig name next fs = some (fs, false) := by
  induction fs with
  | nil => rfl
  | cons f fs ih =>
    have hf := h f (by simp)
    simp [scanFlags, hf, ih fun g hg => h g (by simp [hg])]

/-- The scan acts exactly on the first matching record: with no match in
`pre` and `f` matching, the records of `pre` and everything after `f` are
returned unchanged, and the whole outcome is that of `applyFlag` on `f`. -/
theorem scanFlags_first (ig : Bool) (name : Str) (next : Option Str)
    (pre : List OwnedFlag) (f : OwnedFlag) (post : List OwnedFlag)
    (hpre : ∀ g ∈ pre, flagMatches name g = false)
    (hf : flagMatches name f = true) :
    scanFlags ig name next (pre ++ f :: post) =
      (applyFlag ig next f).map (fun p => (pre ++ p.1 :: post, p.2)) := by
  induction pre with
  | nil => simp [scanFlags, hf]
  | cons g gs ih =>
    have hg := hpre g (by simp)
    rw [List.cons_append, scanFlags]
    simp only [hg, Bool.false_eq_true, if_false,
      ih fun g' hg' => hpre g' (by simp [hg'])]
    cases applyFlag ig next f <;> simp

/-- `FlagValue.parse` never changes the variant tag. -/
theorem parse_preserves_tag (v : FlagValue) (t : Str) (v' : FlagValue)
    (h : v.parse t = some v') : v'.tag = v.tag := by
  cases v <;> simp [FlagValue.parse, Option.map_eq_some'] at h <;>
    (obtain ⟨w, hw, rfl⟩ := h; rfl)

/-- `applyFlag` never changes a record's name, short form or variant tag. -/
theorem applyFlag_preserves_record (ig : Bool) (next : Option Str)
    (f : OwnedFlag) (p : OwnedFlag × Bool) (h : applyFlag ig next f = some p) :
    p.1.name = f.name ∧ p.1.short_form = f.short_form ∧
      p.1.value.tag = f.value.tag := by
  obtain ⟨n, s, v⟩ := f
  cases hv : isValueKind v with
  | true =>
    cases ig with
    | true =>
      rw [applyFlag_value_ignore next n s v hv] at h
      cases next with
      | none => cases h
      | some t => cases h; exact ⟨rfl, rfl, rfl⟩
    | false =>
      cases next with
      | none => rw [applyFlag_value_noignore_none n s v hv] at h; cases h
      | some t =>
        rw [applyFlag_value_noignore_some t n s v hv] at h
        simp only [Option.map_eq_some'] at h
        obtain ⟨w, hw, rfl⟩ := h
        exact ⟨rfl, rfl, parse_preserves_tag v t w hw⟩
  | false =>
    cases v <;> simp [isValueKind] at hv
    case Bool b =>
      cases ig with
      | true => rw [applyFlag_bool_ignore] at h; cases h; exact ⟨rfl, rfl, rfl⟩
      | false => rw [applyFlag_bool_toggle] at h; cases h; exact ⟨rfl, rfl, rfl⟩
    case Empty =>
      cases ig with
      | true => exact Option.noConfusion h
      | false =>
        cases next with
        | none => exact Option.noConfusion h
        | some t => exact Option.noConfusion h

/-- The scan preserves the list of variant tags of the registry. -/
theorem scanFlags_preserves_tags (ig : Bool) (name : Str) (next : Option Str)
    (fs : List OwnedFlag) : ∀ (p : List OwnedFlag × Bool),
    scanFlags ig name next fs = some p →
    p.1.map (fun f => f.value.tag) = fs.map (fun f => f.value.tag) := by
  induction fs with
  | nil => intro p h; cases h; rfl
  | cons f fs ih =>
    intro p h
    rw [scanFlags] at h
    cases hm : flagMatches name f with
    | true =>
      rw [hm] at h
      simp only [eq_self_iff_true, if_true, Option.map_eq_some'] at h
      obtain ⟨q, hq, rfl⟩ := h
      simp [(applyFlag_preserves_record ig next f q hq).2.2]
    | false =>
      rw [hm] at h
      simp only [Bool.false_eq_true, if_false, Option.map_eq_some'] at h
      obtain ⟨q, hq, rfl⟩ := h
      simp [ih q hq]

/-- One loop iteration preserves the list of variant tags. -/
theorem procToken_preserves_tags (ctx : FlagContext) (arg : Str)
    (next : Option Str) (p : FlagContext × Bool)
    (h : procToken ctx arg next = some p) :
    p.1.flags.map (fun f => f.value.tag) =
      ctx.flags.map (fun f => f.value.tag) := by
  rw [procToken] at h
  cases ht : tokenName ctx.flag_ignore arg with
  | none => rw [ht] at h; cases h; rfl
  | some q =>
    rw [ht] at h
    simp only [Option.map_eq_some'] at h
    obtain ⟨r, hr, rfl⟩ := h
    exact scanFlags_preserves_tags q.1 q.2 next ctx.flags r hr

/-- `parse_args` preserves the list of variant tags of the registry. -/
theorem parse_args_preserves_tags (n : Nat) :
    ∀ (args : List Str), args.length ≤ n → ∀ (ctx ctx' : FlagContext),
      parse_args ctx args = some ctx' →
      ctx'.flags.map (fun f => f.value.tag) =
        ctx.flags.map (fun f => f.value.tag) := by
  induction n with
  | zero =>
    intro args hlen ctx ctx' h
    have : args = [] := List.length_eq_zero.mp (Nat.le_zero.mp hlen)
    subst this
    cases h
    rfl
  | succ n ih =>
    intro args hlen ctx ctx' h
    cases args with
    | nil => cases h; rfl
    | cons arg rest =>
      rw [parse_args] at h
      cases hp : procToken ctx arg rest.head? with
      | none => rw [hp] at h; cases h
      | some q =>
        rw [hp] at h
        have htags := procToken_preserves_tags ctx arg rest.head? q hp
        obtain ⟨c1, b⟩ := q
        cases b with
        | false =>
          simp only at h
          have := ih rest (by simpa using Nat.le_of_succ_le_succ hlen) c1 ctx' h
          exact this.trans htags
        | true =>
          cases rest with
          | nil => simp at h
          | cons v rest2 =>
            simp only at h
            have hlen2 : rest2.length ≤ n := by
              simp at hlen; omega
            have := ih rest2 hlen2 c1 ctx' h
            exact this.trans htags

/-- One loop iteration on a token naming a first match `f` (no record of
`pre` matches, `f` does): the outcome is that of `applyFlag` on `f`, with
all other records unchanged. -/
theorem procToken_first (ctx : FlagContext) (tok : Str) (next : Option Str)
    (ig : Bool) (name : Str) (pre : List OwnedFlag) (f : OwnedFlag)
    (post : List OwnedFlag)
    (htok : tokenName ctx.flag_ignore tok = some (ig, name))
    (hflags : ctx.flags = pre ++ f :: post)
    (hpre : ∀ g ∈ pre, flagMatches name g = false)
    (hf : flagMatches name f = true) :
    procToken ctx tok next =
      (applyFlag ig next f).map
        (fun p => ({ ctx with flags := pre ++ p.1 :: post }, p.2)) := by
  simp only [procToken, htok, hflags,
    scanFlags_first ig name next pre f post hpre hf, Option.map_map]
  cases applyFlag ig next f <;> rfl

/-! ## Claim theorems -/

/-- C1: with `ignore_prefix_enabled` true, an ignore-marked occurrence of a
non-Bool flag consumes exactly one following value token without mutating
any flag, preserving token alignment; concretely, with Long flag `count`,
parsing the ignore-marked `count` occurrence, then `7`, then `--count`,
then `9` leaves `count = 9`, and the token `7` is never applied to any
flag. -/
theorem ignore_mode_alignment :
    (∀ (ctx : FlagContext) (tok v : Str) (name : Str)
        (pre post : List OwnedFlag) (f : OwnedFlag) (rest : List Str),
      tokenName ctx.flag_ignore tok = some (true, name) →
      ctx.flags = pre ++ f :: post →
      (∀ g ∈ pre, flagMatches name g = false) →
      flagMatches name f = true →
      isValueKind f.value = true →
      parse_args ctx (tok :: v :: rest) = parse_args ctx rest) ∧
    (∀ d : Int,
      parse_args (countCtx d)
        [strChars "--/count", strChars "7", strChars "--count", strChars "9"] =
        some (countCtx 9)) := by
  constructor
  · intro ctx tok v name pre post f rest htok hflags hpre hf hkind
    obtain ⟨n, s, val⟩ := f
    have happ : applyFlag true (some v) ⟨n, s, val⟩ = some (⟨n, s, val⟩, true) :=
      applyFlag_value_ignore (some v) n s val hkind
    have hproc : procToken ctx tok (some v) = some (ctx, true) := by
      rw [procToken_first ctx tok (some v) true name pre ⟨n, s, val⟩ post
        htok hflags hpre hf, happ]
      simp only [Option.map_some']
      rw [← hflags]
    simp only [parse_args, List.head?_cons, hproc]
  · intro d
    rfl

/-- C2: the registry is scanned linearly in registration order and only the
first record matching the stripped name is ever acted on (mutated, or made
to consume a value token); records registered later under the same name are
never reached. -/
theorem first_match_wins (ctx : FlagContext) (tok : Str) (next : Option Str)
    (ig : Bool) (name : Str) (pre : List OwnedFlag) (f : OwnedFlag)
    (post : List OwnedFlag)
    (htok : tokenName ctx.flag_ignore tok = some (ig, name))
    (hflags : ctx.flags = pre ++ f :: post)
    (hpre : ∀ g ∈ pre, flagMatches name g = false)
    (hf : flagMatches name f = true) :
    procToken ctx tok next =
      (applyFlag ig next f).map
        (fun p => ({ ctx with flags := pre ++ p.1 :: post }, p.2)) :=
  procToken_first ctx tok next ig name pre f post htok hflags hpre hf

/-- Witness for C2: two `Long` flags both named `count`; a `--count 5`
token pair mutates only the first-registered one, the duplicate keeps its
default `1`. -/
theorem first_match_wins_witness :
    procToken ⟨[countFlag 0, countFlag 1], true⟩ (strChars "--count")
      (some (strChars "5")) =
      some (⟨[countFlag 5, countFlag 1], true⟩, true) :=
  (first_match_wins ⟨[countFlag 0, countFlag 1], true⟩ (strChars "--count")
    (some (strChars "5")) false (strChars "count") [] (countFlag 0)
    [countFlag 1] rfl rfl (by simp) rfl).trans (by decide)

/-- C4: a non-Bool match on the final token, with no value token left to
consume, is fatal — whether the occurrence is effectively ignored or not —
while a Bool match never consumes a value token and cannot fail this way. -/
theorem starved_value_fatal (ctx : FlagContext) (tok : Str) (ig : Bool)
    (name : Str) (pre : List OwnedFlag) (f : OwnedFlag)
    (post : List OwnedFlag)
    (htok : tokenName ctx.flag_ignore tok = some (ig, name))
    (hflags : ctx.flags = pre ++ f :: post)
    (hpre : ∀ g ∈ pre, flagMatches name g = false)
    (hf : flagMatches name f = true) :
    (isValueKind f.value = true → parse_args ctx [tok] = none) ∧
    (∀ b, f.value = .Bool b → ∃ ctx', parse_args ctx [tok] = some ctx') := by
  have hproc := procToken_first ctx tok none ig name pre f post htok hflags
    hpre hf
  constructor
  · intro hkind
    obtain ⟨n, s, val⟩ := f
    have happ : applyFlag ig none ⟨n, s, val⟩ = none := by
      cases ig with
      | false => exact applyFlag_value_noignore_none n s val hkind
      | true => exact applyFlag_value_ignore none n s val hkind
    simp only [parse_args, List.head?_nil, hproc, happ, Option.map_none']
  · intro b hb
    obtain ⟨n, s, val⟩ := f
    have hb' : val = .Bool b := hb
    subst hb'
    cases ig with
    | true =>
      refine ⟨{ ctx with flags := pre ++ ⟨n, s, .Bool b⟩ :: post }, ?_⟩
      simp only [parse_args, List.head?_nil, hproc, applyFlag_bool_ignore,
        Option.map_some']
    | false =>
      refine ⟨{ ctx with flags := pre ++ ⟨n, s, .Bool (!b)⟩ :: post }, ?_⟩
      simp only [parse_args, List.head?_nil, hproc, applyFlag_bool_toggle,
        Option.map_some']

/-- Witness for C4: the Long flag `count` matched as the last token makes
parsing fatal. -/
theorem starved_value_fatal_witness :
    parse_args (countCtx 0) [strChars "--count"] = none :=
  (starved_value_fatal (countCtx 0) (strChars "--count") false
    (strChars "count") [] (countFlag 0) [] rfl rfl (by simp) rfl).1 rfl

/-- C6: a Bool flag matched with effective ignore false is toggled
(`value := !value`) and consumes no token; two matches cancel, so parsing
`["--verbose","--verbose"]` returns the flag to its pre-parse value. -/
theorem bool_toggle_involution :
    (∀ (f : OwnedFlag) (b : Bool) (next : Option Str), f.value = .Bool b →
      applyFlag false next f = some ({ f with value := .Bool (!b) }, false)) ∧
    (∀ (b ig : Bool),
      parse_args (verboseCtx b ig)
        [strChars "--verbose", strChars "--verbose"] =
        some (verboseCtx b ig)) := by
  constructor
  · intro f b next hb
    obtain ⟨n, s, val⟩ := f
    have hb' : val = .Bool b := hb
    subst hb'
    exact applyFlag_bool_toggle next n s b
  · intro b ig
    cases b <;> cases ig <;> decide

/-- Witness for C6: toggling the concrete `verbose` flag from `false`. -/
theorem bool_toggle_involution_witness :
    applyFlag false none (verboseFlag false) =
      some (⟨strChars "verbose", strChars "v", .Bool true⟩, false) :=
  bool_toggle_involution.1 (verboseFlag false) false none rfl

/-- C9: a token whose stripped name matches no registered flag leaves every
flag unchanged and consumes no following token: parsing continues on the
remaining tokens from the same registry state. -/
theorem unknown_token_noop (ctx : FlagContext) (tok : Str) (rest : List Str)
    (h : ∀ ig name, tokenName ctx.flag_ignore tok = some (ig, name) →
      ∀ g ∈ ctx.flags, flagMatches name g = false) :
    parse_args ctx (tok :: rest) = parse_args ctx rest := by
  have hproc : procToken ctx tok rest.head? = some (ctx, false) := by
    rw [procToken]
    cases htok : tokenName ctx.flag_ignore tok with
    | none => rfl
    | some q =>
      obtain ⟨ig, name⟩ := q
      simp only [scanFlags_nomatch ig name rest.head? ctx.flags (h ig name htok),
        Option.map_some']
  simp only [parse_args, hproc]

/-- Witness for C9: `parse(["--nope"])` on a one-flag registry leaves the
registry at its defaults. -/
theorem unknown_token_noop_witness :
    parse_args (verboseCtx false true) [strChars "--nope"] =
      some (verboseCtx false true) :=
  (unknown_token_noop (verboseCtx false true) (strChars "--nope") [] (by
    intro ig name h g hg
    have h' : (some ((false : Bool), strChars "nope") : Option (Bool × Str)) =
        some (ig, name) := h
    injection Option.some.inj h' with h1 h2
    subst h1
    subst h2
    simp only [verboseCtx, List.mem_singleton] at hg
    subst hg
    rfl)).trans rfl

/-- Witness for C1: the concrete alignment instance — the ignore-marked
`count` occurrence and its value token `7` are skipped as a pair. -/
theorem ignore_mode_alignment_witness :
    parse_args (countCtx 0)
      [strChars "--/count", strChars "7", strChars "--count", strChars "9"] =
      parse_args (countCtx 0) [strChars "--count", strChars "9"] :=
  ignore_mode_alignment.1 (countCtx 0) (strChars "--/count") (strChars "7")
    (strChars "count") [] [] (countFlag 0)
    [strChars "--count", strChars "9"] rfl rfl (by simp) rfl rfl

/-- C3 counterexample: the claim says applying a consumed value token to a
String flag always stores a value (quote-stripped or verbatim); but on the
one-character token consisting of just a quote the code panics instead of
storing anything, so the parse of `--label` followed by that token is
fatal. -/
theorem string_quote_unconditional_store_cex :
    parse_args labelCtx [strChars "--label", ['"']] = none := by decide

/-- C3 (amended): applying the consumed token to a String flag with
effective ignore false stores the token with its first and last character
removed when the token starts with a quote, **provided** the token is at
least two bytes long and its final character is a single byte (otherwise
the byte slice panics, see C10); a token not starting with a quote is
stored verbatim.  Concretely a quoted `a b` stores `a b` and `ab` stores
`ab`. -/
theorem string_quote_store_amended :
    (∀ (s msg : Str) (c : Char), msg.head? = some '"' →
      msg.getLast? = some c → 2 ≤ byteLen msg → utf8Len c = 1 →
      FlagValue.parse (.String s) msg =
        some (.String ((msg.drop 1).dropLast))) ∧
    (∀ (s msg : Str), msg.head? ≠ some '"' →
      FlagValue.parse (.String s) msg = some (.String msg)) ∧
    (parse_args labelCtx [strChars "--label", strChars "\"a b\""] =
      some ⟨[labelFlag (strChars "a b")], true⟩) ∧
    (parse_args labelCtx [strChars "--label", strChars "ab"] =
      some ⟨[labelFlag (strChars "ab")], true⟩) := by
  refine ⟨?_, ?_, by decide, by decide⟩
  · intro s msg c h1 h2 h3 h4
    simp [FlagValue.parse, stringAssign, h1, h2, h3, h4]
  · intro s msg h1
    simp [FlagValue.parse, stringAssign, h1]

/-- Witness for C3 (amended): the quoted token stores its interior. -/
theorem string_quote_store_amended_witness :
    FlagValue.parse (.String []) (strChars "\"a b\"") =
      some (.String (((strChars "\"a b\"").drop 1).dropLast)) :=
  string_quote_store_amended.1 [] (strChars "\"a b\"") '"' rfl rfl
    (by decide) (by decide)

/-- C5 counterexample: a declaration can be fatal with the registry far
below its 256-entry capacity — `flag_bool` with an empty canonical name
panics on the default-alias byte slice while the registry holds 0
records. -/
theorem declaration_capacity_iff_cex :
    flag_bool FlagContext.new [] false = none ∧
    FlagContext.new.flags.length = 0 := ⟨rfl, rfl⟩

/-- C5 (amended): a `*_short` declaration is fatal exactly when the
registry already holds 256 records; a default-alias declaration is fatal
at capacity as well, succeeds and appends below capacity whenever the
canonical name starts with a single-byte character, and is additionally
fatal below capacity when the name is empty or starts with a multi-byte
character (the alias slice of the first byte panics). -/
theorem declaration_fatality_amended :
    (∀ (ctx : FlagContext) (n s : Str) (v : FlagValue),
      new_flag_short ctx n s v = none ↔ ctx.flags.length = FLAG_CAP) ∧
    (∀ (ctx : FlagContext) (n : Str) (v : FlagValue),
      ctx.flags.length = FLAG_CAP → new_flag ctx n v = none) ∧
    (∀ (ctx : FlagContext) (n : Str) (c : Char) (v : FlagValue),
      ctx.flags.length < FLAG_CAP → n.head? = some c → utf8Len c = 1 →
      new_flag ctx n v =
        some ({ ctx with flags := ctx.flags ++ [⟨n, [c], v⟩] },
          ⟨n, [c], v⟩)) ∧
    (∀ (ctx : FlagContext) (n : Str) (v : FlagValue),
      ctx.flags.length < FLAG_CAP →
      (n = [] ∨ ∃ c, n.head? = some c ∧ utf8Len c ≠ 1) →
      new_flag ctx n v = none) := by
  refine ⟨?_, ?_, ?_, ?_⟩
  · intro ctx n s v
    by_cases hc : ctx.flags.length = FLAG_CAP <;> simp [new_flag_short, hc]
  · intro ctx n v h
    simp [new_flag, h]
  · intro ctx n c v hlt hhead hlen
    obtain ⟨cs, rfl⟩ : ∃ cs, n = c :: cs := by
      cases n with
      | nil => exact absurd hhead (by simp)
      | cons a as =>
        refine ⟨as, ?_⟩
        have : a = c := by simpa using hhead
        rw [this]
    simp [new_flag, OwnedFlag.new, Nat.ne_of_lt hlt, hlen]
  · intro ctx n v hlt hbad
    rcases hbad with rfl | ⟨c, hhead, hlen⟩
    · simp [new_flag, OwnedFlag.new, Nat.ne_of_lt hlt]
    · obtain ⟨cs, rfl⟩ : ∃ cs, n = c :: cs := by
        cases n with
        | nil => exact absurd hhead (by simp)
        | cons a as =>
        refine ⟨as, ?_⟩
        have : a = c := by simpa using hhead
        rw [this]
      simp [new_flag, OwnedFlag.new, Nat.ne_of_lt hlt, hlen]

/-- Witness for C5 (amended): the first declaration with a one-byte-initial
name succeeds and appends its record. -/
theorem declaration_fatality_amended_witness :
    new_flag FlagContext.new (strChars "x") (.Bool false) =
      some (⟨[⟨strChars "x", ['x'], .Bool false⟩], true⟩,
        ⟨strChars "x", ['x'], .Bool false⟩) :=
  declaration_fatality_amended.2.2.1 FlagContext.new (strChars "x") 'x'
    (.Bool false) (by decide) rfl rfl

/-- A successful default-alias registration stores as short form the
one-character string holding the first character of the canonical name. -/
theorem new_flag_default_alias (ctx : FlagContext) (n : Str) (v : FlagValue)
    (p : FlagContext × OwnedFlag) (h : new_flag ctx n v = some p) :
    p.2.short_form = n.take 1 ∧ p.2.name = n := by
  rw [new_flag] at h
  by_cases hc : ctx.flags.length = FLAG_CAP
  · rw [if_pos hc] at h
    exact Option.noConfusion h
  · rw [if_neg hc] at h
    cases hn : OwnedFlag.new n v with
    | none => rw [hn] at h; exact Option.noConfusion h
    | some f =>
      rw [hn] at h
      have h' : (some ({ ctx with flags := ctx.flags ++ [f] }, f) :
          Option (FlagContext × OwnedFlag)) = some p := h
      cases h'
      cases n with
      | nil => exact Option.noConfusion hn
      | cons c cs =>
        rw [OwnedFlag.new] at hn
        by_cases hl : utf8Len c = 1
        · rw [if_pos hl] at hn
          cases hn
          exact ⟨rfl, rfl⟩
        · rw [if_neg hl] at hn
          exact Option.noConfusion hn

/-- C7: every flag declared through a constructor without an explicit
short alias gets as short alias the first character of its canonical
name (stated for each of the six default-alias constructors; each returns
the record its handle aliases). -/
theorem default_short_alias_first_char :
    (∀ (ctx : FlagContext) (n : Str) (d : Bool) (p : FlagContext × OwnedFlag),
      flag_bool ctx n d = some p → p.2.short_form = n.take 1) ∧
    (∀ (ctx : FlagContext) (n : Str) (d : Int) (p : FlagContext × OwnedFlag),
      flag_long ctx n d = some p → p.2.short_form = n.take 1) ∧
    (∀ (ctx : FlagContext) (n : Str) (d : Nat) (p : FlagContext × OwnedFlag),
      flag_ulong ctx n d = some p → p.2.short_form = n.take 1) ∧
    (∀ (ctx : FlagContext) (n : Str) (d : ℚ) (p : FlagContext × OwnedFlag),
      flag_float ctx n d = some p → p.2.short_form = n.take 1) ∧
    (∀ (ctx : FlagContext) (n : Str) (d : ℚ) (p : FlagContext × OwnedFlag),
      flag_double ctx n d = some p → p.2.short_form = n.take 1) ∧
    (∀ (ctx : FlagContext) (n : Str) (d : Str) (p : FlagContext × OwnedFlag),
      flag_string ctx n d = some p → p.2.short_form = n.take 1) :=
  ⟨fun ctx n d p h => (new_flag_default_alias ctx n (.Bool d) p h).1,
   fun ctx n d p h => (new_flag_default_alias ctx n (.Long d) p h).1,
   fun ctx n d p h => (new_flag_default_alias ctx n (.ULong d) p h).1,
   fun ctx n d p h => (new_flag_default_alias ctx n (.Float d) p h).1,
   fun ctx n d p h => (new_flag_default_alias ctx n (.Double d) p h).1,
   fun ctx n d p h => (new_flag_default_alias ctx n (.String d) p h).1⟩

/-- Witness for C7: declaring Bool flag `x` yields short alias `x`. -/
theorem default_short_alias_first_char_witness :
    (⟨strChars "x", ['x'], FlagValue.Bool false⟩ : OwnedFlag).short_form =
      (strChars "x").take 1 :=
  default_short_alias_first_char.1 FlagContext.new (strChars "x") false
    (⟨[⟨strChars "x", ['x'], .Bool false⟩], true⟩,
      ⟨strChars "x", ['x'], .Bool false⟩) rfl

/-- C8: the variant tag of every flag's value is invariant under parsing —
`FlagValue.parse` preserves the tag, and `parse_args` preserves the list
of tags of the whole registry: only payloads mutate. -/
theorem variant_tag_invariant :
    (∀ (v : FlagValue) (t : Str) (v' : FlagValue), v.parse t = some v' →
      v'.tag = v.tag) ∧
    (∀ (ctx : FlagContext) (args : List Str) (ctx' : FlagContext),
      parse_args ctx args = some ctx' →
      ctx'.flags.map (fun f => f.value.tag) =
        ctx.flags.map (fun f => f.value.tag)) :=
  ⟨parse_preserves_tag, fun ctx args ctx' h =>
    parse_args_preserves_tags args.length args le_rfl ctx ctx' h⟩

/-- Witness for C8: parsing `--count 5` keeps the `Long` tag. -/
theorem variant_tag_invariant_witness :
    (⟨[countFlag 5], true⟩ : FlagContext).flags.map (fun f => f.value.tag) =
      (countCtx 0).flags.map (fun f => f.value.tag) :=
  variant_tag_invariant.2 (countCtx 0) [strChars "--count", strChars "5"]
    ⟨[countFlag 5], true⟩ (by decide)

/-- C10: there are value tokens starting with a quote on which storing
into a String flag panics instead of storing: the one-character quote
token (the byte range from 1 to 0 is invalid), and every token whose last
character is multi-byte (the source removes the first and last **byte**,
and the final byte is then not a character boundary). -/
theorem string_store_panic_inputs :
    (∀ s : Str, FlagValue.parse (.String s) ['"'] = none) ∧
    (∀ (s msg : Str) (c : Char), msg.head? = some '"' →
      msg.getLast? = some c → utf8Len c ≠ 1 →
      FlagValue.parse (.String s) msg = none) := by
  constructor
  · intro s
    rfl
  · intro s msg c h1 h2 h3
    simp [FlagValue.parse, stringAssign, h1, h2, h3]

/-- Witness for C10: a token ending in a two-byte character panics. -/
theorem string_store_panic_inputs_witness :
    FlagValue.parse (.String []) ['"', 'a', 'é'] = none :=
  string_store_panic_inputs.2 [] ['"', 'a', 'é'] 'é' rfl rfl (by decide)

end Spar
